import Mathlib

/-!
Verification of the CIndexStoreDB C API shim (`CIndexStoreDB.cpp` /
`CIndexStoreDB.h`) against its natural-language specification.

The embedding models:
- the role bitset constants of `indexstoredb_symbol_role_t` as `Nat` values;
- the internal `SymbolKind` enumeration and the `toCSymbolKind` conversion;
- the data model (`Symbol`, `SymbolLocation`, `SymbolRelation`,
  `SymbolOccurrence`) as Lean structures;
- the reference-counted object heap (`IndexStoreDBObject` / `make_object` /
  `indexstoredb_retain` / `indexstoredb_release`) as explicit state passing
  over a list of (payload, refcount) cells;
- the callback-driven streaming loops, instrumented with a trace of the
  arguments the callback was invoked on.
-/

namespace IndexStoreDB

/-! ## Role bitset constants (from `indexstoredb_symbol_role_t` in CIndexStoreDB.h) -/

def INDEXSTOREDB_SYMBOL_ROLE_DECLARATION : Nat := 2 ^ 0
def INDEXSTOREDB_SYMBOL_ROLE_DEFINITION : Nat := 2 ^ 1
def INDEXSTOREDB_SYMBOL_ROLE_REFERENCE : Nat := 2 ^ 2
def INDEXSTOREDB_SYMBOL_ROLE_READ : Nat := 2 ^ 3
def INDEXSTOREDB_SYMBOL_ROLE_WRITE : Nat := 2 ^ 4
def INDEXSTOREDB_SYMBOL_ROLE_CALL : Nat := 2 ^ 5
def INDEXSTOREDB_SYMBOL_ROLE_DYNAMIC : Nat := 2 ^ 6
def INDEXSTOREDB_SYMBOL_ROLE_ADDRESSOF : Nat := 2 ^ 7
def INDEXSTOREDB_SYMBOL_ROLE_IMPLICIT : Nat := 2 ^ 8

def INDEXSTOREDB_SYMBOL_ROLE_REL_CHILDOF : Nat := 2 ^ 9
def INDEXSTOREDB_SYMBOL_ROLE_REL_BASEOF : Nat := 2 ^ 10
def INDEXSTOREDB_SYMBOL_ROLE_REL_OVERRIDEOF : Nat := 2 ^ 11
def INDEXSTOREDB_SYMBOL_ROLE_REL_RECEIVEDBY : Nat := 2 ^ 12
def INDEXSTOREDB_SYMBOL_ROLE_REL_CALLEDBY : Nat := 2 ^ 13
def INDEXSTOREDB_SYMBOL_ROLE_REL_EXTENDEDBY : Nat := 2 ^ 14
def INDEXSTOREDB_SYMBOL_ROLE_REL_ACCESSOROF : Nat := 2 ^ 15
def INDEXSTOREDB_SYMBOL_ROLE_REL_CONTAINEDBY : Nat := 2 ^ 16
def INDEXSTOREDB_SYMBOL_ROLE_REL_IBTYPEOF : Nat := 2 ^ 17
def INDEXSTOREDB_SYMBOL_ROLE_REL_SPECIALIZATIONOF : Nat := 2 ^ 18

def INDEXSTOREDB_SYMBOL_ROLE_CANONICAL : Nat := 2 ^ 63

/-- The nine occurrence-role flags, in header order (the flags declared before
the `Relation roles.` comment in `indexstoredb_symbol_role_t`). -/
def occurrenceRoleFlags : List Nat :=
  [INDEXSTOREDB_SYMBOL_ROLE_DECLARATION,
   INDEXSTOREDB_SYMBOL_ROLE_DEFINITION,
   INDEXSTOREDB_SYMBOL_ROLE_REFERENCE,
   INDEXSTOREDB_SYMBOL_ROLE_READ,
   INDEXSTOREDB_SYMBOL_ROLE_WRITE,
   INDEXSTOREDB_SYMBOL_ROLE_CALL,
   INDEXSTOREDB_SYMBOL_ROLE_DYNAMIC,
   INDEXSTOREDB_SYMBOL_ROLE_ADDRESSOF,
   INDEXSTOREDB_SYMBOL_ROLE_IMPLICIT]

/-- The relation-role flags, in header order (the flags declared after the
`Relation roles.` comment in `indexstoredb_symbol_role_t`). -/
def relationRoleFlags : List Nat :=
  [INDEXSTOREDB_SYMBOL_ROLE_REL_CHILDOF,
   INDEXSTOREDB_SYMBOL_ROLE_REL_BASEOF,
   INDEXSTOREDB_SYMBOL_ROLE_REL_OVERRIDEOF,
   INDEXSTOREDB_SYMBOL_ROLE_REL_RECEIVEDBY,
   INDEXSTOREDB_SYMBOL_ROLE_REL_CALLEDBY,
   INDEXSTOREDB_SYMBOL_ROLE_REL_EXTENDEDBY,
   INDEXSTOREDB_SYMBOL_ROLE_REL_ACCESSOROF,
   INDEXSTOREDB_SYMBOL_ROLE_REL_CONTAINEDBY,
   INDEXSTOREDB_SYMBOL_ROLE_REL_IBTYPEOF,
   INDEXSTOREDB_SYMBOL_ROLE_REL_SPECIALIZATIONOF]

/-- Claim C2 counterexample: the claim states that every relation-role flag
occupies a bit in the range 9 through 17, but
`INDEXSTOREDB_SYMBOL_ROLE_REL_SPECIALIZATIONOF` is a relation-role flag whose
value is `2 ^ 18`, and `2 ^ 18` is not `2 ^ i` for any `i` between 9 and 17. -/
theorem relation_role_outside_9_17 :
    INDEXSTOREDB_SYMBOL_ROLE_REL_SPECIALIZATIONOF ∈ relationRoleFlags ∧
    INDEXSTOREDB_SYMBOL_ROLE_REL_SPECIALIZATIONOF = 2 ^ 18 ∧
    ((List.range 64).all fun i =>
      !(decide (9 ≤ i) && decide (i ≤ 17)) ||
        INDEXSTOREDB_SYMBOL_ROLE_REL_SPECIALIZATIONOF != 2 ^ i) = true := by
  refine ⟨?_, ?_, ?_⟩ <;> decide

/-- Claim C2 (amended): the nine occurrence-role flags occupy bits 0 through
8, the ten relation-role flags occupy bits 9 through 18, and the canonical
flag is bit 63 (value `2 ^ 63`); no occurrence-role bit coincides with a
relation-role bit. -/
theorem role_bitset_layout :
    occurrenceRoleFlags = ((List.range 9).map fun i => 2 ^ i) ∧
    relationRoleFlags = ((List.range 10).map fun i => 2 ^ (9 + i)) ∧
    INDEXSTOREDB_SYMBOL_ROLE_CANONICAL = 2 ^ 63 ∧
    (occurrenceRoleFlags.all fun a =>
      relationRoleFlags.all fun b => (a &&& b == 0) && (a != b)) = true := by
  refine ⟨?_, ?_, ?_, ?_⟩ <;> decide

/-! ## Symbol kinds -/

def INDEXSTOREDB_SYMBOL_KIND_UNKNOWN : Nat := 0
def INDEXSTOREDB_SYMBOL_KIND_USING : Nat := 26

/-- Modelled from the spec: the internal `SymbolKind` enumeration lives in
`Core/Symbol.h`, which is not part of the two source files; its constructors
are the 27 cases named by the `switch` in `toCSymbolKind` plus `Using`, the
kind the spec singles out as lacking a listed case. The constructor for
`SymbolKind::Macro` is spelled `MacroKind` here. -/
inductive SymbolKind where
  | Unknown
  | Module
  | Namespace
  | NamespaceAlias
  | MacroKind
  | Enum
  | Struct
  | Class
  | Protocol
  | Extension
  | Union
  | TypeAlias
  | Function
  | Variable
  | Parameter
  | Field
  | EnumConstant
  | InstanceMethod
  | ClassMethod
  | StaticMethod
  | InstanceProperty
  | ClassProperty
  | StaticProperty
  | Constructor
  | Destructor
  | ConversionFunction
  | CommentTag
  | Using
deriving DecidableEq

/-- The `switch` of `toCSymbolKind` in CIndexStoreDB.cpp; result values are
the `indexstoredb_symbol_kind_t` constants of CIndexStoreDB.h. `Using` falls
into the `default` branch, which returns `INDEXSTOREDB_SYMBOL_KIND_UNKNOWN`. -/
def toCSymbolKind : SymbolKind → Nat
  | SymbolKind.Unknown => INDEXSTOREDB_SYMBOL_KIND_UNKNOWN
  | SymbolKind.Module => 1
  | SymbolKind.Namespace => 2
  | SymbolKind.NamespaceAlias => 3
  | SymbolKind.MacroKind => 4
  | SymbolKind.Enum => 5
  | SymbolKind.Struct => 6
  | SymbolKind.Class => 7
  | SymbolKind.Protocol => 8
  | SymbolKind.Extension => 9
  | SymbolKind.Union => 10
  | SymbolKind.TypeAlias => 11
  | SymbolKind.Function => 12
  | SymbolKind.Variable => 13
  | SymbolKind.Parameter => 25
  | SymbolKind.Field => 14
  | SymbolKind.EnumConstant => 15
  | SymbolKind.InstanceMethod => 16
  | SymbolKind.ClassMethod => 17
  | SymbolKind.StaticMethod => 18
  | SymbolKind.InstanceProperty => 19
  | SymbolKind.ClassProperty => 20
  | SymbolKind.StaticProperty => 21
  | SymbolKind.Constructor => 22
  | SymbolKind.Destructor => 23
  | SymbolKind.ConversionFunction => 24
  | SymbolKind.CommentTag => 1000
  | SymbolKind.Using => INDEXSTOREDB_SYMBOL_KIND_UNKNOWN

/-- Claim C9: `toCSymbolKind` is a total function; `SymbolKind.Using`, which
has no listed case, maps to `INDEXSTOREDB_SYMBOL_KIND_UNKNOWN` (0) through the
default branch, and no kind at all maps to `INDEXSTOREDB_SYMBOL_KIND_USING`
(26). -/
theorem toCSymbolKind_total_never_using :
    toCSymbolKind SymbolKind.Using = INDEXSTOREDB_SYMBOL_KIND_UNKNOWN ∧
    ∀ k : SymbolKind, toCSymbolKind k ≠ INDEXSTOREDB_SYMBOL_KIND_USING := by
  refine ⟨rfl, ?_⟩
  intro k
  cases k <;> decide

/-! ## Data model -/

/-- A symbol: USR, display name, kind (spec section 3; `Core/Symbol.h`). -/
structure Symbol where
  usr : String
  name : String
  kind : SymbolKind
deriving DecidableEq

/-- A source location: path, 1-based line, 1-based UTF-8 column, system flag. -/
structure SymbolLocation where
  path : String
  line : Int
  column : Int
  isSystem : Bool
deriving DecidableEq

/-- A (role-bitset, symbol) pair (spec section 3). -/
structure SymbolRelation where
  roles : Nat
  symbol : Symbol
deriving DecidableEq

/-- One recorded appearance of a symbol: symbol, role bitset, location, and
its owned relation list. -/
structure SymbolOccurrence where
  symbol : Symbol
  roles : Nat
  location : SymbolLocation
  relations : List SymbolRelation
deriving DecidableEq

/-! ## Streaming loops

Every query loop in CIndexStoreDB.cpp has the shape "for each element, call
the callback; if it returns false, return false at once; if the loop
exhausts the elements, return true". `streamAll` is that loop instrumented
with the trace of the arguments the callback was invoked on, in order. -/

/-- The explicit loop with short-circuit break, instrumented: returns the
boolean the loop returns together with the list of elements the callback was
invoked on. -/
def streamAll (receiver : α → Bool) : List α → Bool × List α
  | [] => (true, [])
  | x :: xs =>
    if receiver x then
      let r := streamAll receiver xs
      (r.1, x :: r.2)
    else
      (false, [x])

/-- The loop body of `indexstoredb_symbol_occurrence_relations` in
CIndexStoreDB.cpp: for each relation, call the applier; if it returns false,
return false at once; return true after the last relation. -/
def relationsLoop (applier : SymbolRelation → Bool) : List SymbolRelation → Bool
  | [] => true
  | rel :: rest => if applier rel then relationsLoop applier rest else false

/-- `indexstoredb_symbol_occurrence_relations` from CIndexStoreDB.cpp. -/
def indexstoredb_symbol_occurrence_relations (occurrence : SymbolOccurrence)
    (applier : SymbolRelation → Bool) : Bool :=
  relationsLoop applier occurrence.relations

/-- The same loop with its invocation trace. -/
def symbolOccurrenceRelationsTrace (occurrence : SymbolOccurrence)
    (applier : SymbolRelation → Bool) : Bool × List SymbolRelation :=
  streamAll applier occurrence.relations

theorem streamAll_fst_eq_relationsLoop (applier : SymbolRelation → Bool)
    (l : List SymbolRelation) :
    (streamAll applier l).1 = relationsLoop applier l := by
  induction l with
  | nil => rfl
  | cons x xs ih =>
    simp only [streamAll, relationsLoop]
    by_cases h : applier x = true
    · simp [h, ih]
    · simp [Bool.eq_false_iff.mpr h]

theorem streamAll_all_true {receiver : α → Bool} {l : List α}
    (h : ∀ x ∈ l, receiver x = true) : streamAll receiver l = (true, l) := by
  induction l with
  | nil => rfl
  | cons x xs ih =>
    have hx := h x (List.mem_cons_self x xs)
    have ih' := ih fun y hy => h y (List.mem_cons_of_mem x hy)
    simp [streamAll, hx, ih']

theorem streamAll_stops {receiver : α → Bool} {pre : List α} {r : α}
    (post : List α) (hpre : ∀ x ∈ pre, receiver x = true)
    (hr : receiver r = false) :
    streamAll receiver (pre ++ r :: post) = (false, pre ++ [r]) := by
  induction pre with
  | nil => simp [streamAll, hr]
  | cons x xs ih =>
    have hx := hpre x (List.mem_cons_self x xs)
    have ih' := ih fun y hy => hpre y (List.mem_cons_of_mem x hy)
    simp [streamAll, hx, ih']

theorem streamAll_trace_subset {receiver : α → Bool} {l : List α} :
    ∀ x ∈ (streamAll receiver l).2, x ∈ l := by
  induction l with
  | nil => simp [streamAll]
  | cons y ys ih =>
    intro x hx
    simp only [streamAll] at hx
    by_cases h : receiver y = true
    · simp only [h, if_true] at hx
      rcases List.mem_cons.mp hx with h1 | h2
      · exact h1 ▸ List.mem_cons_self y ys
      · exact List.mem_cons_of_mem y (ih x h2)
    · simp only [Bool.eq_false_iff.mpr h, if_false] at hx
      rcases List.mem_cons.mp hx with h1 | h2
      · exact h1 ▸ List.mem_cons_self y ys
      · cases h2

/-! ## Sample data used by witnesses -/

def fooSymbol : Symbol := ⟨"c:@F@foo", "foo", SymbolKind.Function⟩
def barSymbol : Symbol := ⟨"c:@F@bar", "bar", SymbolKind.Function⟩
def relA : SymbolRelation := ⟨INDEXSTOREDB_SYMBOL_ROLE_REL_CHILDOF, fooSymbol⟩
def relB : SymbolRelation := ⟨INDEXSTOREDB_SYMBOL_ROLE_REL_BASEOF, barSymbol⟩
def relC : SymbolRelation := ⟨INDEXSTOREDB_SYMBOL_ROLE_REL_CALLEDBY, fooSymbol⟩
def locA : SymbolLocation := ⟨"a.c", 3, 5, false⟩
def locB : SymbolLocation := ⟨"b.c", 10, 1, false⟩
def occA : SymbolOccurrence :=
  ⟨fooSymbol, INDEXSTOREDB_SYMBOL_ROLE_DEFINITION, locA, [relA, relB, relC]⟩
def occB : SymbolOccurrence :=
  ⟨fooSymbol, INDEXSTOREDB_SYMBOL_ROLE_REFERENCE, locB, []⟩
def occC : SymbolOccurrence :=
  ⟨barSymbol, INDEXSTOREDB_SYMBOL_ROLE_DECLARATION, locB, []⟩

/-- Claim C1: the relation enumeration stops the instant the applier returns
false and propagates false; if the applier returns true for every relation,
the loop returns true after exactly one invocation per relation (trace equals
the whole relation list); a stop at any point yields exactly the invocations
up to and including the stopping one. -/
theorem occurrence_relations_stop_semantics (occurrence : SymbolOccurrence)
    (applier : SymbolRelation → Bool) :
    indexstoredb_symbol_occurrence_relations occurrence applier
      = (symbolOccurrenceRelationsTrace occurrence applier).1 ∧
    ((∀ r ∈ occurrence.relations, applier r = true) →
      symbolOccurrenceRelationsTrace occurrence applier
        = (true, occurrence.relations)) ∧
    (∀ pre r post, occurrence.relations = pre ++ r :: post →
      (∀ x ∈ pre, applier x = true) → applier r = false →
      symbolOccurrenceRelationsTrace occurrence applier = (false, pre ++ [r])) := by
  refine ⟨(streamAll_fst_eq_relationsLoop applier occurrence.relations).symm, ?_, ?_⟩
  · intro h
    exact streamAll_all_true h
  · intro pre r post heq hpre hr
    unfold symbolOccurrenceRelationsTrace
    rw [heq]
    exact streamAll_stops post hpre hr

/-- Witness for C1 at a concrete occurrence: an applier that rejects `relB`
is invoked exactly on `relA` then `relB` and the loop reports false; the
always-true applier is invoked once per relation and the loop reports true. -/
theorem occurrence_relations_stop_semantics_witness :
    symbolOccurrenceRelationsTrace occA
      (fun r => r.roles != INDEXSTOREDB_SYMBOL_ROLE_REL_BASEOF)
      = (false, [relA, relB]) ∧
    symbolOccurrenceRelationsTrace occA (fun _ => true) = (true, occA.relations) :=
  ⟨(occurrence_relations_stop_semantics occA
      (fun r => r.roles != INDEXSTOREDB_SYMBOL_ROLE_REL_BASEOF)).2.2
      [relA] relB [relC] (by decide) (by decide) (by decide),
   (occurrence_relations_stop_semantics occA (fun _ => true)).2.1
      (fun r _ => rfl)⟩

/-! ## The reference-counted object heap

`IndexStoreDBObject<T>` cells are modelled as (payload, refcount) pairs in an
explicit heap; a handle is the cell's position, a nullable handle is an
`Option Nat`. `ThreadSafeRefCountedBase` starts the count at 0; `Retain()`
increments, `Release()` decrements (destroying at zero). -/

/-- The payload wrapped by an `IndexStoreDBObject<T>` cell. -/
inductive Payload where
  | symbolPayload (s : Symbol)
  | occurrencePayload (o : SymbolOccurrence)
  | relationPayload (r : SymbolRelation)
  | indexPayload (occurrences : List SymbolOccurrence)
deriving DecidableEq

/-- The heap of live `IndexStoreDBObject` cells. -/
structure ObjHeap where
  objs : List (Payload × Nat)
deriving DecidableEq

/-- Reference count of the cell a handle points to. -/
def refCount (h : ObjHeap) (id : Nat) : Nat :=
  (h.objs[id]?.map fun cell => cell.2).getD 0

/-- `new IndexStoreDBObject<T>(value)`: a fresh cell with count 0. -/
def allocObject (h : ObjHeap) (p : Payload) : ObjHeap × Nat :=
  (⟨h.objs ++ [(p, 0)]⟩, h.objs.length)

/-- `obj->Retain()`: increment the cell's count. -/
def objRetain (h : ObjHeap) (id : Nat) : ObjHeap :=
  match h.objs[id]? with
  | some cell => ⟨h.objs.set id (cell.1, cell.2 + 1)⟩
  | none => h

/-- `obj->Release()`: decrement the cell's count (zero destroys the cell; a
dead cell is a count-0 cell here). -/
def objRelease (h : ObjHeap) (id : Nat) : ObjHeap :=
  match h.objs[id]? with
  | some cell => ⟨h.objs.set id (cell.1, cell.2 - 1)⟩
  | none => h

/-- `make_object` from CIndexStoreDB.cpp: allocate, then `Retain()` once on
behalf of the caller, and hand the cell out. -/
def make_object (h : ObjHeap) (p : Payload) : ObjHeap × Nat :=
  let a := allocObject h p
  (objRetain a.1 a.2, a.2)

/-- `indexstoredb_retain`: `Retain()` unless the handle is null; returns the
argument handle either way. -/
def indexstoredb_retain (h : ObjHeap) (obj : Option Nat) : ObjHeap × Option Nat :=
  match obj with
  | some id => (objRetain h id, some id)
  | none => (h, none)

/-- `indexstoredb_release`: `Release()` unless the handle is null. -/
def indexstoredb_release (h : ObjHeap) (obj : Option Nat) : ObjHeap :=
  match obj with
  | some id => objRelease h id
  | none => h

theorem make_object_id (h : ObjHeap) (p : Payload) :
    (make_object h p).2 = h.objs.length := rfl

theorem make_object_objs (h : ObjHeap) (p : Payload) :
    (make_object h p).1.objs
      = (h.objs ++ [(p, 0)]).set h.objs.length (p, 1) := by
  simp only [make_object, allocObject, objRetain, List.getElem?_concat_length]

theorem make_object_refCount (h : ObjHeap) (p : Payload) :
    refCount (make_object h p).1 (make_object h p).2 = 1 := by
  have hset : ((h.objs ++ [(p, 0)]).set h.objs.length (p, 1))[h.objs.length]?
      = some (p, 1) :=
    List.getElem?_set_self (by simp)
  simp [refCount, make_object_objs, make_object_id, hset]

theorem make_object_preserves (h : ObjHeap) (p : Payload) (id : Nat)
    (hid : id < h.objs.length) :
    (make_object h p).1.objs[id]? = h.objs[id]? := by
  rw [make_object_objs, List.getElem?_set_ne (Nat.ne_of_gt hid),
    List.getElem?_append]
  simp [hid]

theorem make_object_refCount_preserved (h : ObjHeap) (p : Payload) (id : Nat)
    (hid : id < h.objs.length) :
    refCount (make_object h p).1 id = refCount h id := by
  simp [refCount, make_object_preserves h p id hid]

theorem objRetain_refCount (h : ObjHeap) (id : Nat) (hid : id < h.objs.length) :
    refCount (objRetain h id) id = refCount h id + 1 := by
  have hcell : h.objs[id]? = some h.objs[id] := List.getElem?_eq_getElem hid
  simp [objRetain, refCount, hcell, List.getElem?_set_self hid]

/-- Claim C5: `indexstoredb_retain` on a non-null handle increments the
cell's reference count and returns the very same handle, and `make_object`
-- through which every query and accessor hands out handles -- returns a
handle whose reference count is exactly 1, the one reference owned by the
caller. -/
theorem retain_increments_and_handles_owned (h : ObjHeap) (id : Nat)
    (p : Payload) (hid : id < h.objs.length) :
    (indexstoredb_retain h (some id)).2 = some id ∧
    refCount (indexstoredb_retain h (some id)).1 id = refCount h id + 1 ∧
    refCount (make_object h p).1 (make_object h p).2 = 1 :=
  ⟨rfl, objRetain_refCount h id hid, make_object_refCount h p⟩

/-- Witness for C5 on a one-cell heap. -/
theorem retain_increments_and_handles_owned_witness :
    (indexstoredb_retain ⟨[(Payload.symbolPayload fooSymbol, 1)]⟩ (some 0)).2
      = some 0 ∧
    refCount (indexstoredb_retain ⟨[(Payload.symbolPayload fooSymbol, 1)]⟩
      (some 0)).1 0 = 2 ∧
    refCount (make_object ⟨[(Payload.symbolPayload fooSymbol, 1)]⟩
      (Payload.symbolPayload barSymbol)).1 1 = 1 := by
  have h := retain_increments_and_handles_owned
    ⟨[(Payload.symbolPayload fooSymbol, 1)]⟩ 0
    (Payload.symbolPayload barSymbol) (by decide)
  exact ⟨h.1, h.2.1.trans (by decide), h.2.2⟩

/-! ## The error channel -/

/-- `IndexStoreDBError` from CIndexStoreDB.cpp: a message string. -/
structure IndexStoreDBError where
  message : String
deriving DecidableEq

/-- The heap of error objects: (error, live) cells; `delete` clears the live
flag. -/
structure ErrHeap where
  errs : List (IndexStoreDBError × Bool)
deriving DecidableEq

/-- `indexstoredb_error_get_description`. -/
def indexstoredb_error_get_description (error : IndexStoreDBError) : String :=
  error.message

/-- `indexstoredb_error_dispose`: `delete` the error unless null. -/
def indexstoredb_error_dispose (h : ErrHeap) (error : Option Nat) : ErrHeap :=
  match error with
  | some id =>
    match h.errs[id]? with
    | some cell => ⟨h.errs.set id (cell.1, false)⟩
    | none => h
  | none => h

/-- Claim C6: passing a null handle to `indexstoredb_retain` or
`indexstoredb_release` changes no state (and retain returns null), and
passing a null error to `indexstoredb_error_dispose` changes no state. -/
theorem null_arguments_are_noops (h : ObjHeap) (eh : ErrHeap) :
    indexstoredb_retain h none = (h, none) ∧
    indexstoredb_release h none = h ∧
    indexstoredb_error_dispose eh none = eh :=
  ⟨rfl, rfl, rfl⟩

/-! ## Accessors returning handles -/

/-- `indexstoredb_symbol_occurrence_symbol`: `make_object` on the
occurrence's symbol. -/
def indexstoredb_symbol_occurrence_symbol (h : ObjHeap)
    (occurrence : SymbolOccurrence) : ObjHeap × Nat :=
  make_object h (Payload.symbolPayload occurrence.symbol)

/-- `indexstoredb_symbol_relation_get_symbol`: `make_object` on the
relation's symbol. -/
def indexstoredb_symbol_relation_get_symbol (h : ObjHeap)
    (relation : SymbolRelation) : ObjHeap × Nat :=
  make_object h (Payload.symbolPayload relation.symbol)

/-- `indexstoredb_symbol_relation_get_roles`. -/
def indexstoredb_symbol_relation_get_roles (relation : SymbolRelation) : Nat :=
  relation.roles

/-- `indexstoredb_symbol_occurrence_roles`. -/
def indexstoredb_symbol_occurrence_roles (occurrence : SymbolOccurrence) : Nat :=
  occurrence.roles

/-- `indexstoredb_symbol_occurrence_location`: a borrowed pointer into the
occurrence; nothing is allocated and the heap is unchanged. -/
def indexstoredb_symbol_occurrence_location (h : ObjHeap)
    (occurrence : SymbolOccurrence) : ObjHeap × SymbolLocation :=
  (h, occurrence.location)

/-- The relations loop of `indexstoredb_symbol_occurrence_relations` with the
per-iteration `make_object(rel)` made explicit: the heap is threaded through
the loop, each iteration allocates a fresh wrapper cell for the relation and
passes its handle to the applier (the payload-level `relationsLoop` used for
the stop semantics is this loop with the allocation erased). Returns the
final heap, the loop's boolean, and the handles passed to the applier in
order. -/
def relationsLoopAlloc (applier : Nat → Bool) (h : ObjHeap) :
    List SymbolRelation → ObjHeap × Bool × List Nat
  | [] => (h, true, [])
  | rel :: rest =>
    let r := make_object h (Payload.relationPayload rel)
    if applier r.2 then
      let k := relationsLoopAlloc applier r.1 rest
      (k.1, k.2.1, r.2 :: k.2.2)
    else
      (r.1, false, [r.2])

/-- `indexstoredb_symbol_occurrence_relations`, heap-level view: the same
source loop as the payload-level embedding, with the wrapper cells the
applier receives made explicit. -/
def symbolOccurrenceRelationsAlloc (h : ObjHeap)
    (occurrence : SymbolOccurrence) (applier : Nat → Bool) :
    ObjHeap × Bool × List Nat :=
  relationsLoopAlloc applier h occurrence.relations

theorem make_object_length (h : ObjHeap) (p : Payload) :
    (make_object h p).1.objs.length = h.objs.length + 1 := by
  rw [make_object_objs]
  simp

theorem relationsLoopAlloc_handles (applier : Nat → Bool) (h : ObjHeap)
    (rels : List SymbolRelation) :
    (relationsLoopAlloc applier h rels).2.2
      = List.range' h.objs.length
          (relationsLoopAlloc applier h rels).2.2.length := by
  induction rels generalizing h with
  | nil => rfl
  | cons rel rest ih =>
    by_cases ha :
        applier (make_object h (Payload.relationPayload rel)).2 = true
    · simp only [relationsLoopAlloc, ha, if_true]
      rw [make_object_id, List.length_cons, List.range'_succ,
        ih (make_object h (Payload.relationPayload rel)).1,
        make_object_length]
      simp [List.length_range']
    · simp only [relationsLoopAlloc, if_neg ha]
      rw [make_object_id, List.length_singleton, List.range'_one]

theorem relationsLoopAlloc_preserves (applier : Nat → Bool) (h : ObjHeap)
    (rels : List SymbolRelation) (id : Nat) (hid : id < h.objs.length) :
    refCount (relationsLoopAlloc applier h rels).1 id = refCount h id := by
  induction rels generalizing h with
  | nil => rfl
  | cons rel rest ih =>
    have hlt : id < (make_object h (Payload.relationPayload rel)).1.objs.length := by
      rw [make_object_length]
      omega
    by_cases ha :
        applier (make_object h (Payload.relationPayload rel)).2 = true
    · simp only [relationsLoopAlloc, ha, if_true]
      rw [ih _ hlt]
      exact make_object_refCount_preserved h _ id hid
    · simp only [relationsLoopAlloc, if_neg ha]
      exact make_object_refCount_preserved h _ id hid

theorem relationsLoopAlloc_counts (applier : Nat → Bool) (h : ObjHeap)
    (rels : List SymbolRelation) :
    ∀ id ∈ (relationsLoopAlloc applier h rels).2.2,
      refCount (relationsLoopAlloc applier h rels).1 id = 1 := by
  induction rels generalizing h with
  | nil =>
    intro id hid
    cases hid
  | cons rel rest ih =>
    intro id hid
    by_cases ha :
        applier (make_object h (Payload.relationPayload rel)).2 = true
    · simp only [relationsLoopAlloc, ha, if_true] at hid ⊢
      rcases List.mem_cons.mp hid with h1 | h2
      · subst h1
        rw [relationsLoopAlloc_preserves _ _ _ _
          (by rw [make_object_length, make_object_id]; omega)]
        exact make_object_refCount h _
      · exact ih _ id h2
    · simp only [relationsLoopAlloc, if_neg ha] at hid ⊢
      rw [List.mem_singleton.mp hid]
      exact make_object_refCount h _

/-- Claim C10: each call of a handle-returning accessor allocates a fresh
caller-owned wrapper with reference count 1; two calls with the same argument
return distinct handles, and the second call leaves the first handle's count
untouched (each is released independently); the relation handles passed to
the applier of `indexstoredb_symbol_occurrence_relations` are likewise one
fresh wrapper per invocation — consecutive fresh cells, pairwise distinct,
each still at reference count 1 when the loop returns;
`indexstoredb_symbol_occurrence_location` returns the occurrence's own
location and leaves the heap unchanged. -/
theorem accessors_allocate_fresh_handles (h : ObjHeap)
    (occurrence : SymbolOccurrence) (relation : SymbolRelation)
    (applier : Nat → Bool) :
    (indexstoredb_symbol_occurrence_symbol h occurrence).2
      ≠ (indexstoredb_symbol_occurrence_symbol
          (indexstoredb_symbol_occurrence_symbol h occurrence).1 occurrence).2 ∧
    refCount (indexstoredb_symbol_occurrence_symbol h occurrence).1
      (indexstoredb_symbol_occurrence_symbol h occurrence).2 = 1 ∧
    refCount (indexstoredb_symbol_occurrence_symbol
        (indexstoredb_symbol_occurrence_symbol h occurrence).1 occurrence).1
      (indexstoredb_symbol_occurrence_symbol
        (indexstoredb_symbol_occurrence_symbol h occurrence).1 occurrence).2 = 1 ∧
    refCount (indexstoredb_symbol_occurrence_symbol
        (indexstoredb_symbol_occurrence_symbol h occurrence).1 occurrence).1
      (indexstoredb_symbol_occurrence_symbol h occurrence).2 = 1 ∧
    refCount (indexstoredb_symbol_relation_get_symbol h relation).1
      (indexstoredb_symbol_relation_get_symbol h relation).2 = 1 ∧
    (indexstoredb_symbol_relation_get_symbol h relation).2
      ≠ (indexstoredb_symbol_relation_get_symbol
          (indexstoredb_symbol_relation_get_symbol h relation).1 relation).2 ∧
    (symbolOccurrenceRelationsAlloc h occurrence applier).2.2
      = List.range' h.objs.length
          (symbolOccurrenceRelationsAlloc h occurrence applier).2.2.length ∧
    (symbolOccurrenceRelationsAlloc h occurrence applier).2.2.Nodup ∧
    (∀ id ∈ (symbolOccurrenceRelationsAlloc h occurrence applier).2.2,
      refCount (symbolOccurrenceRelationsAlloc h occurrence applier).1 id = 1) ∧
    indexstoredb_symbol_occurrence_location h occurrence
      = (h, occurrence.location) := by
  simp only [indexstoredb_symbol_occurrence_symbol,
    indexstoredb_symbol_relation_get_symbol, symbolOccurrenceRelationsAlloc]
  refine ⟨?_, make_object_refCount h _, make_object_refCount _ _, ?_, ?_, ?_,
    relationsLoopAlloc_handles applier h occurrence.relations, ?_,
    relationsLoopAlloc_counts applier h occurrence.relations, rfl⟩
  · rw [make_object_id, make_object_id, make_object_objs]
    simp
  · rw [make_object_id h]
    rw [make_object_refCount_preserved _ _ _ (by rw [make_object_objs]; simp)]
    exact make_object_refCount h _
  · exact make_object_refCount h _
  · rw [make_object_id, make_object_id, make_object_objs]
    simp
  · rw [relationsLoopAlloc_handles applier h occurrence.relations]
    exact List.nodup_range' _ _

/-! ## The USR query -/

/-- Role-mask filter semantics (spec section 4.2): an all-zero mask is no
filter; otherwise the occurrence must share at least one bit with the mask. -/
def matchesRoleMask (roles mask : Nat) : Bool :=
  mask == 0 || roles &&& mask != 0

/-- Whether `occurrencesByUSR` streams this occurrence: its symbol's USR
equals the query USR and its roles pass the mask. -/
def occurrenceMatchesQuery (usr : String) (mask : Nat)
    (o : SymbolOccurrence) : Bool :=
  o.symbol.usr == usr && matchesRoleMask o.roles mask

/-- Modelled from the spec: `IndexSystem::foreachSymbolOccurrenceByUSR`
(called by `indexstoredb_index_symbol_occurrences_by_usr`) is not under the
two source files. Per spec sections 4.2 and 4.4 it streams, in index order
with early stop, exactly the occurrences whose symbol USR equals the query
USR, filtered by the role mask. The index collaborator is a list of
occurrences; the result pairs the exhaustion boolean with the trace of
receiver invocations. -/
def foreachSymbolOccurrenceByUSRTrace (occurrences : List SymbolOccurrence)
    (usr : String) (mask : Nat) (receiver : SymbolOccurrence → Bool) :
    Bool × List SymbolOccurrence :=
  streamAll receiver (occurrences.filter (occurrenceMatchesQuery usr mask))

/-- `indexstoredb_index_symbol_occurrences_by_usr`: forward to the index
collaborator, returning its exhaustion boolean. -/
def indexstoredb_index_symbol_occurrences_by_usr
    (occurrences : List SymbolOccurrence) (usr : String) (roles : Nat)
    (receiver : SymbolOccurrence → Bool) : Bool :=
  (foreachSymbolOccurrenceByUSRTrace occurrences usr roles receiver).1

/-- Claim C3: every occurrence streamed by the roleMask-filtered USR query
shares a bit with a nonzero mask, and a mask of 0 is no filter at all (the
query behaves exactly as the same query filtered only by USR). -/
theorem occurrences_by_usr_role_mask (occurrences : List SymbolOccurrence)
    (usr : String) (mask : Nat) (receiver : SymbolOccurrence → Bool) :
    (∀ o ∈ (foreachSymbolOccurrenceByUSRTrace occurrences usr mask receiver).2,
      mask ≠ 0 → o.roles &&& mask ≠ 0) ∧
    (mask = 0 → foreachSymbolOccurrenceByUSRTrace occurrences usr mask receiver
      = streamAll receiver (occurrences.filter fun o => o.symbol.usr == usr)) := by
  constructor
  · intro o ho hmask
    have hp := List.of_mem_filter (streamAll_trace_subset o ho)
    simp only [occurrenceMatchesQuery, matchesRoleMask, Bool.and_eq_true,
      Bool.or_eq_true, beq_iff_eq, bne_iff_ne] at hp
    rcases hp.2 with h0 | hne
    · exact absurd h0 hmask
    · exact hne
  · rintro rfl
    unfold foreachSymbolOccurrenceByUSRTrace
    congr 1
    apply List.filter_congr
    intro o _
    simp [occurrenceMatchesQuery, matchesRoleMask]

/-- Witness for C3: with mask `REFERENCE` the trace-member `occB` has a
nonzero intersection with the mask; with mask 0 the query at a concrete
index equals the USR-only filtered stream. -/
theorem occurrences_by_usr_role_mask_witness :
    occB.roles &&& INDEXSTOREDB_SYMBOL_ROLE_REFERENCE ≠ 0 ∧
    foreachSymbolOccurrenceByUSRTrace [occA, occB, occC] "c:@F@foo" 0
      (fun _ => true)
      = streamAll (fun _ => true)
        (List.filter (fun o => o.symbol.usr == "c:@F@foo") [occA, occB, occC]) :=
  ⟨(occurrences_by_usr_role_mask [occA, occB, occC] "c:@F@foo"
      INDEXSTOREDB_SYMBOL_ROLE_REFERENCE (fun _ => true)).1 occB (by decide)
      (by decide),
   (occurrences_by_usr_role_mask [occA, occB, occC] "c:@F@foo" 0
      (fun _ => true)).2 rfl⟩

/-- Claim C7: every occurrence streamed by the USR query has a symbol whose
USR is exactly the query USR. -/
theorem occurrences_by_usr_exact_usr (occurrences : List SymbolOccurrence)
    (usr : String) (mask : Nat) (receiver : SymbolOccurrence → Bool) :
    ∀ o ∈ (foreachSymbolOccurrenceByUSRTrace occurrences usr mask receiver).2,
      o.symbol.usr = usr := by
  intro o ho
  have hp := List.of_mem_filter (streamAll_trace_subset o ho)
  simp only [occurrenceMatchesQuery, Bool.and_eq_true, beq_iff_eq] at hp
  exact hp.1

/-- Witness for C7 at a concrete index and query. -/
theorem occurrences_by_usr_exact_usr_witness :
    occB.symbol.usr = "c:@F@foo" :=
  occurrences_by_usr_exact_usr [occA, occB, occC] "c:@F@foo" 0 (fun _ => true)
    occB (by decide)

/-! ## Index construction -/

/-- `indexstoredb_index_create` from CIndexStoreDB.cpp. The external
`IndexSystem::create` is modelled by its outcome: `some` index payload on
success, `none` with the message it wrote into `errMsg` on failure.
`hasErrorParam` says whether the caller passed a non-null error
out-parameter; the third component is what got written through it (`none` =
nothing allocated or written). -/
def indexstoredb_index_create (h : ObjHeap)
    (createResult : Option (List SymbolOccurrence)) (errMsg : String)
    (hasErrorParam : Bool) : ObjHeap × Option Nat × Option IndexStoreDBError :=
  match createResult with
  | some occurrences =>
    let r := make_object h (Payload.indexPayload occurrences)
    (r.1, some r.2, none)
  | none => (h, none, if hasErrorParam then some ⟨errMsg⟩ else none)

/-- Claim C4: `indexstoredb_index_create` either returns a non-null handle
and writes no error, or returns null and populates the error out-parameter
with the message exactly when the caller supplied one (allocating nothing
otherwise); and lookup operations report absence of results as an empty,
successfully-exhausted stream, never as an error. -/
theorem index_create_error_contract (h : ObjHeap)
    (createResult : Option (List SymbolOccurrence)) (errMsg : String)
    (hasErrorParam : Bool) :
    (∀ occurrences, createResult = some occurrences →
      (indexstoredb_index_create h createResult errMsg hasErrorParam).2.1 ≠ none ∧
      (indexstoredb_index_create h createResult errMsg hasErrorParam).2.2 = none) ∧
    (createResult = none →
      (indexstoredb_index_create h createResult errMsg hasErrorParam).2.1 = none ∧
      (indexstoredb_index_create h createResult errMsg hasErrorParam).2.2
        = if hasErrorParam then some ⟨errMsg⟩ else none) ∧
    (∀ occurrences usr mask receiver,
      (∀ o ∈ occurrences, occurrenceMatchesQuery usr mask o = false) →
      foreachSymbolOccurrenceByUSRTrace occurrences usr mask receiver
        = (true, [])) := by
  refine ⟨?_, ?_, ?_⟩
  · rintro occurrences rfl
    exact ⟨by simp [indexstoredb_index_create], rfl⟩
  · rintro rfl
    exact ⟨rfl, rfl⟩
  · intro occurrences usr mask receiver hnone
    unfold foreachSymbolOccurrenceByUSRTrace
    rw [List.filter_eq_nil_iff.mpr fun o ho => by simp [hnone o ho]]
    rfl

/-- Witness for C4: success writes no error; failure with a supplied
out-parameter yields the message; a USR with no matching occurrence yields
the empty exhausted stream. -/
theorem index_create_error_contract_witness :
    (indexstoredb_index_create ⟨[]⟩ (some [occA]) "" true).2.2 = none ∧
    (indexstoredb_index_create ⟨[]⟩ none "error creating index" true).2.2
      = some ⟨"error creating index"⟩ ∧
    foreachSymbolOccurrenceByUSRTrace [occC] "c:@F@foo" 0 (fun _ => true)
      = (true, []) := by
  refine ⟨?_, ?_, ?_⟩
  · exact ((index_create_error_contract ⟨[]⟩ (some [occA]) "" true).1 [occA]
      rfl).2
  · have h := ((index_create_error_contract ⟨[]⟩ none "error creating index"
      true).2.1 rfl).2
    simpa using h
  · exact (index_create_error_contract ⟨[]⟩ none "" true).2.2 [occC] "c:@F@foo"
      0 (fun _ => true) (by decide)

/-! ## The matcher -/

/-- Case folding of a candidate or pattern (spec section 4.3). -/
def foldCase (ignoreCase : Bool) (s : List Char) : List Char :=
  if ignoreCase then s.map Char.toLower else s

/-- Contiguous-substring check: does `p` occur contiguously in `c`? -/
def containsSubstring (p : List Char) : List Char → Bool
  | [] => p.isEmpty
  | c :: cs => p.isPrefixOf (c :: cs) || containsSubstring p cs

/-- In-order but possibly non-contiguous occurrence check. -/
def containsSubsequence : List Char → List Char → Bool
  | [], _ => true
  | _ :: _, [] => false
  | p :: ps, c :: cs =>
    if p == c then containsSubsequence ps cs
    else containsSubsequence (p :: ps) cs

/-- Modelled from the spec: the Matcher behind
`foreachCanonicalSymbolOccurrenceContainingPattern` is not under the two
source files. Per spec section 4.3 the four flags impose conjunctive
constraints: anchorStart demands the pattern as a literal prefix, anchorEnd
as a literal suffix, subsequence selects in-order (else contiguous)
occurrence, and ignoreCase compares case-folded. -/
def matchesPattern (anchorStart anchorEnd subsequence ignoreCase : Bool)
    (pattern candidate : List Char) : Bool :=
  (!anchorStart ||
    (foldCase ignoreCase pattern).isPrefixOf (foldCase ignoreCase candidate)) &&
  (!anchorEnd ||
    (foldCase ignoreCase pattern).isSuffixOf (foldCase ignoreCase candidate)) &&
  (if subsequence then
    containsSubsequence (foldCase ignoreCase pattern)
      (foldCase ignoreCase candidate)
  else
    containsSubstring (foldCase ignoreCase pattern)
      (foldCase ignoreCase candidate))

theorem containsSubstring_of_isPrefixOf {p c : List Char}
    (h : p.isPrefixOf c = true) : containsSubstring p c = true := by
  cases c with
  | nil =>
    cases p with
    | nil => rfl
    | cons a as => simp [List.isPrefixOf] at h
  | cons x xs => simp [containsSubstring, h]

/-- Claim C8: with anchorStart, anchorEnd, no subsequence and no case
folding, the matcher accepts a candidate if and only if the pattern is no
longer than the candidate and is both its first-`len(pattern)`-characters
prefix and its last-`len(pattern)`-characters suffix; in particular a
pattern longer than the candidate never matches. -/
theorem anchored_exact_match (pattern candidate : List Char) :
    matchesPattern true true false false pattern candidate = true ↔
      (pattern.length ≤ candidate.length ∧
       candidate.take pattern.length = pattern ∧
       candidate.drop (candidate.length - pattern.length) = pattern) := by
  constructor
  · intro hm
    simp only [matchesPattern, foldCase, Bool.not_true, Bool.false_or,
      if_neg, Bool.and_eq_true, if_false, Bool.false_eq_true, ite_false] at hm
    obtain ⟨⟨hp, hs⟩, _⟩ := hm
    have hp' := List.isPrefixOf_iff_prefix.mp hp
    have hs' := List.isSuffixOf_iff_suffix.mp hs
    exact ⟨hp'.length_le, (List.prefix_iff_eq_take.mp hp').symm,
      (List.suffix_iff_eq_drop.mp hs').symm⟩
  · rintro ⟨hlen, htake, hdrop⟩
    have hp : pattern <+: candidate := List.prefix_iff_eq_take.mpr htake.symm
    have hs : pattern <:+ candidate := List.suffix_iff_eq_drop.mpr hdrop.symm
    have hpb := List.isPrefixOf_iff_prefix.mpr hp
    have hsb := List.isSuffixOf_iff_suffix.mpr hs
    simp [matchesPattern, foldCase, hpb, hsb,
      containsSubstring_of_isPrefixOf hpb]
